import Mathlib

/-!
Shallow embedding of the progressive channel catalog cache of
`src/pkg/provider/api.go` (package `provider`, type `ApiProvider`).

The mutable provider state is split into its two independent parts:
`CatalogIndex` (the `channels` id map and `channelNames` alias map,
both Go maps modelled as functions `String → Option _`) and
`RefreshState` (the manual-refresh rate limiter fields).  Times and
durations are integers counting seconds, matching the whole-second
constants of the Go code (`30*time.Second`, `5*time.Minute`).
-/

namespace SlackMCP

/-- A user record, with the fields the cache code reads
(`user.RealName`, `user.Name` in `refreshChannelsInBackground`). -/
structure SlackUser where
  id : String
  name : String
  realName : String
deriving DecidableEq

/-- A channel record, with the fields the cache code reads and writes
(`ch.ID`, `ch.Name`, `ch.IsIM`, `ch.User`, `ch.IsMember`), plus a free
`topic` field standing for the rest of the payload that is stored and
refreshed in place but never inspected. -/
structure Channel where
  id : String
  name : String
  isIM : Bool
  user : String
  isMember : Bool
  topic : String
deriving DecidableEq

/-- The cache's index: `ap.channels : map[string]slack.Channel` and
`ap.channelNames : map[string]string`, modelled as lookup functions. -/
@[ext]
structure CatalogIndex where
  channels : String → Option Channel
  channelNames : String → Option String

/-- Go map assignment `m[k] = v`. -/
def upd {α : Type} (m : String → Option α) (k : String) (v : α) : String → Option α :=
  fun q => if q = k then some v else m q

/-- The freshly made empty maps of `New` / `loadChannelsProgressive`. -/
def emptyIndex : CatalogIndex :=
  { channels := fun _ => none, channelNames := fun _ => none }

/-- `strings.HasPrefix(s, c)` for a single ASCII letter `c`: true
exactly when the first character of `s` is `c`. -/
def hasLetterPrefix (s : String) (c : Char) : Bool :=
  match s.data with
  | [] => false
  | a :: _ => a == c

/-- `strings.ToLower`, modelled as characterwise lowering. -/
def lowerStr (s : String) : String :=
  ⟨s.data.map Char.toLower⟩

/-- The alias keys written for one channel by the member-scoped ingest
loop (api.go lines 232-250) and by the warm load (lines 155-173): the
channel name and its lowercase form when the name is nonempty, and for
DMs additionally the user's real name and username (and their lowercase
forms) when the user is known. -/
def aliasKeys (users : String → Option SlackUser) (ch : Channel) : List String :=
  (if ch.name ≠ "" then [ch.name, lowerStr ch.name] else []) ++
  (if ch.isIM ∧ ch.user ≠ "" then
    match users ch.user with
    | some u =>
        (if u.realName ≠ "" then [u.realName, lowerStr u.realName] else []) ++
        (if u.name ≠ "" then [u.name, lowerStr u.name] else [])
    | none => []
   else [])

/-- Sequentially assign `m[k] = id` for each key (the order of the Go
assignments; every key gets the same channel id as value). -/
def setAliases (keys : List String) (cid : String) (m : String → Option String) :
    String → Option String :=
  keys.foldl (fun acc k => upd acc k cid) m

/-- Phase 1 forces `ch.IsMember = true` before storing (api.go line 229). -/
def setMember (ch : Channel) : Channel :=
  { ch with isMember := true }

/-- One iteration of the Phase 1 loop body (api.go lines 227-251):
store the channel with `IsMember` forced true, then unconditionally
overwrite every alias key. -/
def memberStep (users : String → Option SlackUser) (idx : CatalogIndex) (ch : Channel) :
    CatalogIndex :=
  { channels := upd idx.channels ch.id (setMember ch),
    channelNames := setAliases (aliasKeys users ch) ch.id idx.channelNames }

/-- Ingest one page of member-scoped results (Phase 1, api.go lines 226-252). -/
def ingestMemberPage (users : String → Option SlackUser) (page : List Channel)
    (idx : CatalogIndex) : CatalogIndex :=
  page.foldl (memberStep users) idx

/-- One iteration of the Phase 2 loop body (api.go lines 290-306): add
the channel only if its id is not already cached, and in that case add
each alias key only if that alias slot is still free. -/
def allStep (idx : CatalogIndex) (ch : Channel) : CatalogIndex :=
  if (idx.channels ch.id).isSome then idx
  else
    { channels := upd idx.channels ch.id ch,
      channelNames :=
        if ch.name ≠ "" then
          let m1 := if (idx.channelNames ch.name).isSome then idx.channelNames
                    else upd idx.channelNames ch.name ch.id
          if (m1 (lowerStr ch.name)).isSome then m1
          else upd m1 (lowerStr ch.name) ch.id
        else idx.channelNames }

/-- Ingest one page of all-scope results (Phase 2, api.go lines 288-307). -/
def ingestAllPage (page : List Channel) (idx : CatalogIndex) : CatalogIndex :=
  page.foldl allStep idx

/-- One iteration of the warm-load loop body (api.go lines 152-174):
like the Phase 1 step but without forcing `IsMember`. -/
def warmStep (users : String → Option SlackUser) (idx : CatalogIndex) (ch : Channel) :
    CatalogIndex :=
  { channels := upd idx.channels ch.id ch,
    channelNames := setAliases (aliasKeys users ch) ch.id idx.channelNames }

/-- The scope of one ingest call: Phase 1 (`GetConversationsForUser`)
versus Phase 2 (`GetConversations`). -/
inductive Scope where
  | memberOnly : Scope
  | all : Scope
deriving DecidableEq

/-- Apply one scoped page ingest to the index. -/
def applyIngest (users : String → Option SlackUser) (idx : CatalogIndex) :
    Scope × List Channel → CatalogIndex
  | (Scope.memberOnly, p) => ingestMemberPage users p idx
  | (Scope.all, p) => ingestAllPage p idx

/-- Apply a whole sequence of scoped page ingests, in order. -/
def runIngests (users : String → Option SlackUser) (idx : CatalogIndex)
    (ops : List (Scope × List Channel)) : CatalogIndex :=
  ops.foldl (applyIngest users) idx

/-- Result of `loadChannelsProgressive` (api.go lines 139-197): the
index it leaves in place, the value of `lastChannelRefresh`, and
whether the background refresh goroutine was launched.  The Go function
returns a nil error on every path. -/
structure WarmStartResult where
  idx : CatalogIndex
  lastChannelRefresh : Int
  refreshLaunched : Bool

/-- `loadChannelsProgressive`: `snapshot = some chans` stands for a
readable, parseable `.channels_cache.json`; `none` stands for a
missing, unreadable, or unparsable file (the code collapses all three
into the same cold-start path).  On success it rebuilds both maps from
the snapshot and stamps `lastChannelRefresh = now`; on failure it
installs fresh empty maps and leaves the zero timestamp.  Both paths
launch the background refresh and return without error. -/
def loadChannelsProgressive (users : String → Option SlackUser)
    (snapshot : Option (List Channel)) (now : Int) : WarmStartResult :=
  match snapshot with
  | some chans =>
      { idx := chans.foldl (warmStep users) emptyIndex,
        lastChannelRefresh := now,
        refreshLaunched := true }
  | none =>
      { idx := emptyIndex,
        lastChannelRefresh := 0,
        refreshLaunched := true }

/-- `strings.HasPrefix(s, "C") || strings.HasPrefix(s, "D") ||
strings.HasPrefix(s, "G")` — the identifier-shape test used by both
`ResolveChannelID` (line 419) and `GetChannelInfo` (line 364). -/
def isChannelIDShape (s : String) : Bool :=
  hasLetterPrefix s 'C' || hasLetterPrefix s 'D' || hasLetterPrefix s 'G'

/-- `ResolveChannelID` (api.go lines 417-438): id-shaped inputs pass
through; otherwise exact alias lookup, then lowercase alias lookup,
then the original input.  A pure function of the index: it performs no
upstream call. -/
def resolveChannelID (idx : CatalogIndex) (s : String) : String :=
  if isChannelIDShape s then s
  else
    match idx.channelNames s with
    | some cid => cid
    | none =>
        match idx.channelNames (lowerStr s) with
        | some cid => cid
        | none => s

/-- The name-to-id resolution inlined at the top of `GetChannelInfo`
(api.go lines 360-371): identical decision order to `ResolveChannelID`. -/
def resolveTarget (idx : CatalogIndex) (s : String) : String :=
  if isChannelIDShape s then s
  else
    match idx.channelNames s with
    | some cid => cid
    | none =>
        match idx.channelNames (lowerStr s) with
        | some cid => cid
        | none => s

/-- Result of `GetChannelInfo`: the returned channel (or `none` for an
error), the possibly updated index, and whether the call reached out to
the upstream API (`ap.Provide` + `GetConversationInfo`). -/
structure ChannelInfoResult where
  found : Option Channel
  idx : CatalogIndex
  calledUpstream : Bool

/-- `GetChannelInfo` (api.go lines 358-404): resolve the input, return
the cached entry on a hit; on a miss, fetch the entry from upstream
itself (`upstream` models `GetConversationInfo`, `none` standing for
any error), cache it under the resolved key, and overwrite its name
aliases. -/
def getChannelInfo (idx : CatalogIndex) (upstream : String → Option Channel)
    (input : String) : ChannelInfoResult :=
  let channelID := resolveTarget idx input
  match idx.channels channelID with
  | some ch => { found := some ch, idx := idx, calledUpstream := false }
  | none =>
      match upstream channelID with
      | none => { found := none, idx := idx, calledUpstream := true }
      | some info =>
          { found := some info,
            idx :=
              { channels := upd idx.channels channelID info,
                channelNames :=
                  if info.name ≠ "" then
                    upd (upd idx.channelNames info.name info.id) (lowerStr info.name) info.id
                  else idx.channelNames },
            calledUpstream := true }

/-- The rate-limiter fields of `ApiProvider`: `lastChannelRefresh`,
`refreshCalls`, `refreshResetTime` (api.go lines 32-34), in seconds. -/
structure RefreshState where
  lastChannelRefresh : Int
  refreshCalls : Int
  refreshResetTime : Int
deriving DecidableEq

/-- Result of `RefreshChannelCache` (api.go lines 441-446). -/
structure RefreshResult where
  allowed : Bool
  lastRefresh : Int
  retryAfter : Int
  refreshCount : Int
deriving DecidableEq

/-- The window-expiry reset at the top of `RefreshChannelCache`
(api.go lines 463-466): if more than 5 minutes have passed since
`refreshResetTime`, zero the counter and restart the window. -/
def windowReset (now : Int) (st : RefreshState) : RefreshState :=
  if now - st.refreshResetTime > 300 then
    { st with refreshCalls := 0, refreshResetTime := now }
  else st

/-- `minWait = 30*time.Second + time.Duration(ap.refreshCalls)*30*time.Second`
(api.go line 473). -/
def minWaitOf (st : RefreshState) : Int :=
  30 + st.refreshCalls * 30

/-- `RefreshChannelCache` (api.go lines 456-504): reset the window if
expired; deny when the elapsed time since the last refresh is below the
escalating minimum wait or the counter has reached 3, returning a
retry-after that is clamped up to 30 when negative and leaving the
state untouched; otherwise increment the counter, stamp
`lastChannelRefresh = now`, launch the background refresh, and allow. -/
def refreshChannelCache (now : Int) (st : RefreshState) : RefreshResult × RefreshState :=
  let st1 := windowReset now st
  let minWait := minWaitOf st1
  let since := now - st1.lastChannelRefresh
  if since < minWait ∨ st1.refreshCalls ≥ 3 then
    let ra0 := minWait - since
    let ra := if ra0 < 0 then 30 else ra0
    ({ allowed := false,
       lastRefresh := st1.lastChannelRefresh,
       retryAfter := ra,
       refreshCount := st1.refreshCalls }, st1)
  else
    ({ allowed := true,
       lastRefresh := now,
       retryAfter := 0,
       refreshCount := st1.refreshCalls + 1 },
     { st1 with refreshCalls := st1.refreshCalls + 1, lastChannelRefresh := now })

/-- The catalog entry for `cid` is cached with its membership flag set. -/
def memberTrueAt (idx : CatalogIndex) (cid : String) : Prop :=
  ∃ ch, idx.channels cid = some ch ∧ ch.isMember = true

/-! ## Pointwise lemmas about the map-building folds -/

theorem upd_apply {α : Type} (m : String → Option α) (k : String) (v : α) (q : String) :
    upd m k v q = if q = k then some v else m q := rfl

theorem setAliases_apply (cid : String) :
    ∀ (keys : List String) (m : String → Option String) (q : String),
      setAliases keys cid m q = if q ∈ keys then some cid else m q := by
  intro keys
  induction keys with
  | nil => intro m q; simp [setAliases]
  | cons k ks ih =>
      intro m q
      have hstep : setAliases (k :: ks) cid m = setAliases ks cid (upd m k cid) := rfl
      rw [hstep, ih]
      by_cases hks : q ∈ ks
      · simp [hks]
      · by_cases hk : q = k <;> simp [hks, hk, upd]

/-- A left fold that either installs a value or keeps the accumulator is
determined by its run from `none`, with the initial value only surfacing
when no element fires. -/
theorem foldl_if_init {α β : Type} (c : α → Prop) [DecidablePred c] (v : α → β) :
    ∀ (p : List α) (a : Option β),
      p.foldl (fun acc x => if c x then some (v x) else acc) a =
        match p.foldl (fun acc x => if c x then some (v x) else acc) none with
        | some b => some b
        | none => a := by
  intro p
  induction p with
  | nil => intro a; rfl
  | cons x rest ih =>
      intro a
      simp only [List.foldl_cons]
      rw [ih (if c x then some (v x) else a), ih (if c x then some (v x) else none)]
      rcases h : rest.foldl (fun acc x => if c x then some (v x) else acc) none with _ | b
      · by_cases hc : c x <;> simp [hc]
      · simp

/-- Running such a fold twice from the same list is the same as running it once. -/
theorem foldl_if_idem {α β : Type} (c : α → Prop) [DecidablePred c] (v : α → β)
    (p : List α) (a : Option β) :
    p.foldl (fun acc x => if c x then some (v x) else acc)
      (p.foldl (fun acc x => if c x then some (v x) else acc) a) =
    p.foldl (fun acc x => if c x then some (v x) else acc) a := by
  rw [foldl_if_init c v p (p.foldl (fun acc x => if c x then some (v x) else acc) a),
      foldl_if_init c v p a]
  rcases h : p.foldl (fun acc x => if c x then some (v x) else acc) none with _ | b <;> simp

theorem ingestMember_channels (users : String → Option SlackUser) (q : String) :
    ∀ (p : List Channel) (idx : CatalogIndex),
      (ingestMemberPage users p idx).channels q =
        p.foldl (fun acc ch => if q = ch.id then some (setMember ch) else acc)
          (idx.channels q) := by
  intro p
  induction p with
  | nil => intro idx; rfl
  | cons ch rest ih =>
      intro idx
      have hstep : ingestMemberPage users (ch :: rest) idx =
          ingestMemberPage users rest (memberStep users idx ch) := rfl
      rw [hstep, ih]
      simp only [List.foldl_cons]
      congr 1

theorem ingestMember_names (users : String → Option SlackUser) (q : String) :
    ∀ (p : List Channel) (idx : CatalogIndex),
      (ingestMemberPage users p idx).channelNames q =
        p.foldl (fun acc ch => if q ∈ aliasKeys users ch then some ch.id else acc)
          (idx.channelNames q) := by
  intro p
  induction p with
  | nil => intro idx; rfl
  | cons ch rest ih =>
      intro idx
      have hstep : ingestMemberPage users (ch :: rest) idx =
          ingestMemberPage users rest (memberStep users idx ch) := rfl
      rw [hstep, ih]
      simp only [List.foldl_cons]
      congr 1
      have : (memberStep users idx ch).channelNames q =
          setAliases (aliasKeys users ch) ch.id idx.channelNames q := rfl
      rw [this, setAliases_apply]

/-! ## Phase 2 step lemmas -/

theorem allStep_of_present {idx : CatalogIndex} {ch : Channel}
    (h : (idx.channels ch.id).isSome) : allStep idx ch = idx := by
  simp [allStep, h]

theorem allStep_channels_mono {idx : CatalogIndex} {ch : Channel} {q : String}
    (h : (idx.channels q).isSome) : ((allStep idx ch).channels q).isSome := by
  by_cases hp : (idx.channels ch.id).isSome
  · rw [allStep_of_present hp]; exact h
  · simp only [allStep, hp, if_false, Bool.false_eq_true]
    by_cases hq : q = ch.id <;> simp [upd, hq, h]

theorem allStep_self_present (idx : CatalogIndex) (ch : Channel) :
    ((allStep idx ch).channels ch.id).isSome := by
  by_cases hp : (idx.channels ch.id).isSome
  · rw [allStep_of_present hp]; exact hp
  · simp [allStep, hp, upd]

theorem ingestAll_channels_mono (q : String) :
    ∀ (p : List Channel) (idx : CatalogIndex),
      (idx.channels q).isSome → ((ingestAllPage p idx).channels q).isSome := by
  intro p
  induction p with
  | nil => intro idx h; exact h
  | cons x rest ih =>
      intro idx h
      exact ih (allStep idx x) (allStep_channels_mono h)

theorem ingestAll_mem_present :
    ∀ (p : List Channel) (idx : CatalogIndex) {ch : Channel}, ch ∈ p →
      ((ingestAllPage p idx).channels ch.id).isSome := by
  intro p
  induction p with
  | nil => intro idx ch h; exact absurd h (List.not_mem_nil ch)
  | cons x rest ih =>
      intro idx ch h
      rcases List.mem_cons.mp h with rfl | hm
      · exact ingestAll_channels_mono ch.id rest (allStep idx ch) (allStep_self_present idx ch)
      · exact ih (allStep idx x) hm

theorem ingestAll_noop :
    ∀ (p : List Channel) (idx : CatalogIndex),
      (∀ ch ∈ p, (idx.channels ch.id).isSome) → ingestAllPage p idx = idx := by
  intro p
  induction p with
  | nil => intro idx _; rfl
  | cons x rest ih =>
      intro idx h
      have hx : (idx.channels x.id).isSome := h x (List.mem_cons_self x rest)
      have hstep : ingestAllPage (x :: rest) idx = ingestAllPage rest (allStep idx x) := rfl
      rw [hstep, allStep_of_present hx]
      exact ih idx (fun ch hch => h ch (List.mem_cons_of_mem x hch))

/-- C9: ingesting the same page twice in succession, under the same
scope, yields the same CatalogIndex (id map and name map) as ingesting
it once — for the member-scoped Phase 1 ingest because the repeated
writes are identical last-writer-wins assignments, and for the
all-scope Phase 2 ingest because every id of the page is present after
the first pass, making the second pass a no-op. -/
theorem c9_idempotent_reingest (users : String → Option SlackUser)
    (p : List Channel) (idx : CatalogIndex) :
    ingestMemberPage users p (ingestMemberPage users p idx) = ingestMemberPage users p idx ∧
    ingestAllPage p (ingestAllPage p idx) = ingestAllPage p idx := by
  constructor
  · apply CatalogIndex.ext
    · funext q
      rw [ingestMember_channels, ingestMember_channels]
      exact foldl_if_idem (fun ch => q = ch.id) setMember p (idx.channels q)
    · funext q
      rw [ingestMember_names, ingestMember_names]
      exact foldl_if_idem (fun ch => q ∈ aliasKeys users ch) Channel.id p (idx.channelNames q)
  · exact ingestAll_noop p (ingestAllPage p idx)
      (fun ch hch => ingestAll_mem_present p idx hch)

/-! ## Membership stickiness -/

theorem memberStep_preserves (users : String → Option SlackUser) (idx : CatalogIndex)
    (ch : Channel) (cid : String) (h : memberTrueAt idx cid) :
    memberTrueAt (memberStep users idx ch) cid := by
  rcases h with ⟨c, hc, hm⟩
  by_cases hq : cid = ch.id
  · exact ⟨setMember ch, by simp [memberStep, upd, hq], rfl⟩
  · exact ⟨c, by simpa [memberStep, upd, hq] using hc, hm⟩

theorem allStep_preserves (idx : CatalogIndex) (ch : Channel) (cid : String)
    (h : memberTrueAt idx cid) : memberTrueAt (allStep idx ch) cid := by
  rcases h with ⟨c, hc, hm⟩
  by_cases hp : (idx.channels ch.id).isSome
  · rw [allStep_of_present hp]; exact ⟨c, hc, hm⟩
  · by_cases hq : cid = ch.id
    · subst hq
      exact absurd (by simp [hc]) hp
    · exact ⟨c, by simpa [allStep, hp, upd, hq] using hc, hm⟩

theorem ingestMember_preserves (users : String → Option SlackUser) :
    ∀ (p : List Channel) (idx : CatalogIndex) (cid : String),
      memberTrueAt idx cid → memberTrueAt (ingestMemberPage users p idx) cid := by
  intro p
  induction p with
  | nil => intro idx cid h; exact h
  | cons x rest ih =>
      intro idx cid h
      exact ih (memberStep users idx x) cid (memberStep_preserves users idx x cid h)

theorem ingestAll_preserves :
    ∀ (p : List Channel) (idx : CatalogIndex) (cid : String),
      memberTrueAt idx cid → memberTrueAt (ingestAllPage p idx) cid := by
  intro p
  induction p with
  | nil => intro idx cid h; exact h
  | cons x rest ih =>
      intro idx cid h
      exact ih (allStep idx x) cid (allStep_preserves idx x cid h)

theorem runIngests_preserves (users : String → Option SlackUser) :
    ∀ (ops : List (Scope × List Channel)) (idx : CatalogIndex) (cid : String),
      memberTrueAt idx cid → memberTrueAt (runIngests users idx ops) cid := by
  intro ops
  induction ops with
  | nil => intro idx cid h; exact h
  | cons op rest ih =>
      intro idx cid h
      rcases op with ⟨sc, p⟩
      cases sc with
      | memberOnly => exact ih _ cid (ingestMember_preserves users p idx cid h)
      | all => exact ih _ cid (ingestAll_preserves p idx cid h)

theorem memberTrue_of_mem (users : String → Option SlackUser) :
    ∀ (p : List Channel) (idx : CatalogIndex) {ch : Channel}, ch ∈ p →
      memberTrueAt (ingestMemberPage users p idx) ch.id := by
  intro p
  induction p with
  | nil => intro idx ch h; exact absurd h (List.not_mem_nil ch)
  | cons x rest ih =>
      intro idx ch h
      rcases List.mem_cons.mp h with rfl | hm
      · exact ingestMember_preserves users rest (memberStep users idx ch) ch.id
          ⟨setMember ch, by simp [memberStep, upd], rfl⟩
      · exact ih (memberStep users idx x) hm

/-- C1: once a member-scoped (Phase 1) ingest has stored a channel of
the page — whose `isMember` flag it forces to true — every later
sequence of ingests of either scope keeps a cached entry for that id
with `isMember = true`: the all-scope (Phase 2) ingest never touches an
id that is already cached, and further member-scoped ingests only
re-force the flag. -/
theorem c1_membership_monotonicity (users : String → Option SlackUser)
    (p : List Channel) (idx : CatalogIndex) (ch : Channel) (hch : ch ∈ p)
    (ops : List (Scope × List Channel)) :
    memberTrueAt (runIngests users (ingestMemberPage users p idx) ops) ch.id :=
  runIngests_preserves users ops (ingestMemberPage users p idx) ch.id
    (memberTrue_of_mem users p idx hch)

/-- Witness for C1: a member-scoped ingest of `C0001` followed by an
all-scope ingest of the same id with the flag cleared still leaves
`isMember = true` in the cache. -/
theorem c1_membership_monotonicity_witness :
    memberTrueAt
      (runIngests (fun _ => none)
        (ingestMemberPage (fun _ => none)
          [{ id := "C0001", name := "general", isIM := false, user := "",
             isMember := false, topic := "" }]
          emptyIndex)
        [(Scope.all,
          [{ id := "C0001", name := "general", isIM := false, user := "",
             isMember := false, topic := "fresh" }])])
      "C0001" :=
  c1_membership_monotonicity (fun _ => none) _ emptyIndex _
    (List.mem_singleton.mpr rfl) _

/-! ## Name-claim stability -/

/-- Counterexample for C2: two channels named `general` are ingested in
order by the member-scoped (Phase 1) path; the alias slot is not
protected there — the second write overwrites it — so the name resolves
to the second id, not the first. -/
theorem c2_name_claim_counterexample :
    resolveChannelID
      (ingestMemberPage (fun _ => none)
        [{ id := "C0002", name := "general", isIM := false, user := "",
           isMember := false, topic := "" }]
        (ingestMemberPage (fun _ => none)
          [{ id := "C0001", name := "general", isIM := false, user := "",
             isMember := false, topic := "" }]
          emptyIndex))
      "general" = "C0002" ∧ ("C0002" : String) ≠ "C0001" := by
  constructor
  · rfl
  · decide

/-- A guarded alias write — `m[k] = v` performed only when slot `k` is
free — never disturbs a slot that is already occupied. -/
theorem condWrite_preserve (m : String → Option String) (k v n cid : String)
    (h : m n = some cid) :
    (if (m k).isSome then m else upd m k v) n = some cid := by
  by_cases hocc : (m k).isSome
  · simpa [hocc] using h
  · have hne : n ≠ k := by
      intro he
      subst he
      exact hocc (by simp [h])
    simpa [hocc, upd, hne] using h

theorem allStep_names_preserve {idx : CatalogIndex} {ch : Channel} {n cid : String}
    (h : idx.channelNames n = some cid) : (allStep idx ch).channelNames n = some cid := by
  by_cases hp : (idx.channels ch.id).isSome
  · rw [allStep_of_present hp]; exact h
  · by_cases hname : ch.name = ""
    · simpa [allStep, hp, hname] using h
    · have h1 := condWrite_preserve idx.channelNames ch.name ch.id n cid h
      have h2 := condWrite_preserve
        (if (idx.channelNames ch.name).isSome then idx.channelNames
         else upd idx.channelNames ch.name ch.id)
        (lowerStr ch.name) ch.id n cid h1
      simpa [allStep, hp, hname] using h2

theorem ingestAll_names_preserve :
    ∀ (p : List Channel) (idx : CatalogIndex) {n cid : String},
      idx.channelNames n = some cid → (ingestAllPage p idx).channelNames n = some cid := by
  intro p
  induction p with
  | nil => intro idx n cid h; exact h
  | cons x rest ih =>
      intro idx n cid h
      exact ih (allStep idx x) (allStep_names_preserve h)

/-- C2 (amended): name-claim stability holds for the all-scope
(Phase 2) ingest path — there an occupied alias slot is never
overwritten, so a name that already resolves to A's id keeps resolving
to A's id after any Phase 2 page is ingested.  The member-scoped
(Phase 1), warm-load and single-entry paths overwrite the alias
unconditionally (last writer wins), as the counterexample shows. -/
theorem c2_name_claim_allscope (p : List Channel) (idx : CatalogIndex) (n cid : String)
    (hn : ¬ isChannelIDShape n) (h : idx.channelNames n = some cid) :
    resolveChannelID (ingestAllPage p idx) n = cid := by
  have hpres : (ingestAllPage p idx).channelNames n = some cid :=
    ingestAll_names_preserve p idx h
  simp [resolveChannelID, hn, hpres]

/-- Witness for C2's amended theorem: with `general ↦ C0001` already in
the alias map, an all-scope page carrying another `general` does not
steal the alias. -/
theorem c2_name_claim_allscope_witness :
    resolveChannelID
      (ingestAllPage
        [{ id := "C0002", name := "general", isIM := false, user := "",
           isMember := false, topic := "" }]
        { channels := fun _ => none,
          channelNames := fun q => if q = "general" then some "C0001" else none })
      "general" = "C0001" :=
  c2_name_claim_allscope _ _ "general" "C0001" (by decide) (by decide)

/-! ## Name resolution -/

/-- C6: `ResolveChannelID` first passes id-shaped inputs through
unchanged, otherwise tries the exact alias lookup, otherwise the
lowercase alias lookup, otherwise returns the input unchanged.  It is a
pure function of the in-memory index — the embedding takes no upstream
oracle because the code performs no upstream call. -/
theorem c6_resolution_order (idx : CatalogIndex) (s : String) :
    (isChannelIDShape s = true → resolveChannelID idx s = s) ∧
    (isChannelIDShape s = false →
      ∀ cid, idx.channelNames s = some cid → resolveChannelID idx s = cid) ∧
    (isChannelIDShape s = false → idx.channelNames s = none →
      ∀ cid, idx.channelNames (lowerStr s) = some cid → resolveChannelID idx s = cid) ∧
    (isChannelIDShape s = false → idx.channelNames s = none →
      idx.channelNames (lowerStr s) = none → resolveChannelID idx s = s) := by
  refine ⟨?_, ?_, ?_, ?_⟩
  · intro h
    simp [resolveChannelID, h]
  · intro h cid hc
    simp [resolveChannelID, h, hc]
  · intro h hc cid hl
    simp [resolveChannelID, h, hc, hl]
  · intro h hc hl
    simp [resolveChannelID, h, hc, hl]

/-- Witness for C6: all four branches exercised on a small alias map. -/
theorem c6_resolution_order_witness :
    resolveChannelID
      { channels := fun _ => none,
        channelNames := fun q =>
          if q = "general" then some "C04AB" else
          if q = "random" then some "C04CD" else none } "C999" = "C999" ∧
    resolveChannelID
      { channels := fun _ => none,
        channelNames := fun q =>
          if q = "general" then some "C04AB" else
          if q = "random" then some "C04CD" else none } "general" = "C04AB" ∧
    resolveChannelID
      { channels := fun _ => none,
        channelNames := fun q =>
          if q = "general" then some "C04AB" else
          if q = "random" then some "C04CD" else none } "Random" = "C04CD" ∧
    resolveChannelID
      { channels := fun _ => none,
        channelNames := fun q =>
          if q = "general" then some "C04AB" else
          if q = "random" then some "C04CD" else none } "zzz" = "zzz" :=
  ⟨(c6_resolution_order _ "C999").1 (by decide),
   (c6_resolution_order _ "general").2.1 (by decide) "C04AB" (by decide),
   (c6_resolution_order _ "Random").2.2.1 (by decide) (by decide) "C04CD" (by decide),
   (c6_resolution_order _ "zzz").2.2.2 (by decide) (by decide) (by decide)⟩

/-- C10: any input whose first character is `C`, `D` or `G` is returned
unchanged by `ResolveChannelID`, without consulting the alias map —
even when that very string is an alias pointing at a different id, so
such an alias can never be resolved by name. -/
theorem c10_id_shape_shadowing (idx : CatalogIndex) (s : String)
    (h : hasLetterPrefix s 'C' = true ∨ hasLetterPrefix s 'D' = true ∨
         hasLetterPrefix s 'G' = true) :
    resolveChannelID idx s = s := by
  have hb : isChannelIDShape s = true := by
    rcases h with h | h | h <;> simp [isChannelIDShape, h]
  simp [resolveChannelID, hb]

/-- Witness for C10: the DM alias `Dave Smith ↦ D0DAVE` is present in
the alias map, yet resolving `Dave Smith` (first letter `D`) returns
the string itself, not the alias target. -/
theorem c10_id_shape_shadowing_witness :
    resolveChannelID
      { channels := fun _ => none,
        channelNames := fun q => if q = "Dave Smith" then some "D0DAVE" else none }
      "Dave Smith" = "Dave Smith" :=
  c10_id_shape_shadowing _ "Dave Smith" (Or.inr (Or.inl (by decide)))

/-! ## Warm start -/

theorem warmStep_channels_mono (users : String → Option SlackUser)
    {idx : CatalogIndex} {ch : Channel} {q : String}
    (h : (idx.channels q).isSome) : ((warmStep users idx ch).channels q).isSome := by
  by_cases hq : q = ch.id <;> simp [warmStep, upd, hq, h]

theorem warmFold_channels_mono (users : String → Option SlackUser) :
    ∀ (p : List Channel) (idx : CatalogIndex) (q : String),
      (idx.channels q).isSome →
      ((p.foldl (warmStep users) idx).channels q).isSome := by
  intro p
  induction p with
  | nil => intro idx q h; exact h
  | cons x rest ih =>
      intro idx q h
      exact ih (warmStep users idx x) q (warmStep_channels_mono users h)

theorem warmFold_mem_present (users : String → Option SlackUser) :
    ∀ (p : List Channel) (idx : CatalogIndex) {ch : Channel}, ch ∈ p →
      ((p.foldl (warmStep users) idx).channels ch.id).isSome := by
  intro p
  induction p with
  | nil => intro idx ch h; exact absurd h (List.not_mem_nil ch)
  | cons x rest ih =>
      intro idx ch h
      rcases List.mem_cons.mp h with rfl | hm
      · exact warmFold_channels_mono users rest (warmStep users idx ch) ch.id
          (by simp [warmStep, upd])
      · exact ih (warmStep users idx x) hm

/-- C7: `loadChannelsProgressive` never aborts — it launches the
background refresh on every path and returns without error.  On a
successful snapshot load it populates the index (every snapshot entry's
id is cached) and stamps `lastChannelRefresh = now`; on a missing,
unreadable or unparsable snapshot it leaves the index empty with the
zero timestamp and proceeds to the background refresh (cold start). -/
theorem c7_warm_start_degradation (users : String → Option SlackUser)
    (snapshot : Option (List Channel)) (now : Int) :
    (loadChannelsProgressive users snapshot now).refreshLaunched = true ∧
    (∀ chans, snapshot = some chans →
      (loadChannelsProgressive users snapshot now).lastChannelRefresh = now ∧
      ∀ ch ∈ chans,
        (((loadChannelsProgressive users snapshot now).idx).channels ch.id).isSome) ∧
    (snapshot = none →
      (loadChannelsProgressive users snapshot now).idx = emptyIndex ∧
      (loadChannelsProgressive users snapshot now).lastChannelRefresh = 0) := by
  refine ⟨?_, ?_, ?_⟩
  · cases snapshot <;> rfl
  · intro chans hs
    subst hs
    exact ⟨rfl, fun ch hch => warmFold_mem_present users chans emptyIndex hch⟩
  · intro hs
    subst hs
    exact ⟨rfl, rfl⟩

/-- Witness for C7: a one-entry snapshot warm-starts the index and
still launches the refresh; a failed load leaves it empty and also
launches the refresh. -/
theorem c7_warm_start_degradation_witness :
    (loadChannelsProgressive (fun _ => none)
      (some [{ id := "C0001", name := "general", isIM := false, user := "",
               isMember := true, topic := "" }]) 42).lastChannelRefresh = 42 ∧
    ((loadChannelsProgressive (fun _ => none)
      (some [{ id := "C0001", name := "general", isIM := false, user := "",
               isMember := true, topic := "" }]) 42).idx.channels "C0001").isSome ∧
    (loadChannelsProgressive (fun _ => none) none 42).idx = emptyIndex ∧
    (loadChannelsProgressive (fun _ => none) none 42).refreshLaunched = true := by
  have hsome := (c7_warm_start_degradation (fun _ => none)
    (some [{ id := "C0001", name := "general", isIM := false, user := "",
             isMember := true, topic := "" }]) 42).2.1 _ rfl
  have hnone := (c7_warm_start_degradation (fun _ => none) none 42).2.2 rfl
  have hlaunch := (c7_warm_start_degradation (fun _ => none) none 42).1
  exact ⟨hsome.1, hsome.2 _ (List.mem_singleton.mpr rfl), hnone.1, hlaunch⟩

/-! ## Manual-refresh rate limiter -/

/-- The window reset is a no-op while the window is still open. -/
theorem windowReset_of_within (now : Int) (st : RefreshState)
    (h : ¬(now - st.refreshResetTime > 300)) : windowReset now st = st := by
  simp [windowReset, h]

/-- Branch lemma: the denied branch of `RefreshChannelCache`. -/
theorem refresh_denied (now : Int) (st : RefreshState)
    (hc : now - (windowReset now st).lastChannelRefresh < minWaitOf (windowReset now st) ∨
          (windowReset now st).refreshCalls ≥ 3) :
    refreshChannelCache now st =
      ({ allowed := false,
         lastRefresh := (windowReset now st).lastChannelRefresh,
         retryAfter :=
           if minWaitOf (windowReset now st) -
               (now - (windowReset now st).lastChannelRefresh) < 0 then 30
           else minWaitOf (windowReset now st) -
               (now - (windowReset now st).lastChannelRefresh),
         refreshCount := (windowReset now st).refreshCalls }, windowReset now st) := by
  simp [refreshChannelCache, hc]

/-- Branch lemma: the allowed branch of `RefreshChannelCache`. -/
theorem refresh_allowed (now : Int) (st : RefreshState)
    (hc : ¬(now - (windowReset now st).lastChannelRefresh < minWaitOf (windowReset now st) ∨
          (windowReset now st).refreshCalls ≥ 3)) :
    refreshChannelCache now st =
      ({ allowed := true,
         lastRefresh := now,
         retryAfter := 0,
         refreshCount := (windowReset now st).refreshCalls + 1 },
       { lastChannelRefresh := now,
         refreshCalls := (windowReset now st).refreshCalls + 1,
         refreshResetTime := (windowReset now st).refreshResetTime }) := by
  simp [refreshChannelCache, hc]

/-- C3 (amended): after the window-expiry reset, the call is denied
exactly when `now - lastRefreshTimestamp < baseWait + count*stepWait`
or `count ≥ 3`; on denial the state is left exactly as the reset left
it and `retryAfter = minWait - (now - lastRefreshTimestamp)` — except
that a negative value (possible only on a count-limit denial) is
clamped up to `baseWait = 30`; otherwise the counter is incremented,
`lastRefreshTimestamp` is set to `now`, and the call is allowed. -/
theorem c3_rate_limiter_algorithm (now : Int) (st : RefreshState) :
    ((now - (windowReset now st).lastChannelRefresh < minWaitOf (windowReset now st) ∨
        (windowReset now st).refreshCalls ≥ 3) →
      (refreshChannelCache now st).1.allowed = false ∧
      (refreshChannelCache now st).1.retryAfter =
        (if minWaitOf (windowReset now st) -
             (now - (windowReset now st).lastChannelRefresh) < 0 then 30
         else minWaitOf (windowReset now st) -
             (now - (windowReset now st).lastChannelRefresh)) ∧
      (refreshChannelCache now st).2 = windowReset now st) ∧
    (¬(now - (windowReset now st).lastChannelRefresh < minWaitOf (windowReset now st) ∨
        (windowReset now st).refreshCalls ≥ 3) →
      (refreshChannelCache now st).1.allowed = true ∧
      (refreshChannelCache now st).1.retryAfter = 0 ∧
      (refreshChannelCache now st).2 =
        { lastChannelRefresh := now,
          refreshCalls := (windowReset now st).refreshCalls + 1,
          refreshResetTime := (windowReset now st).refreshResetTime }) := by
  constructor
  · intro hc
    rw [refresh_denied now st hc]
    exact ⟨rfl, rfl, rfl⟩
  · intro hc
    rw [refresh_allowed now st hc]
    exact ⟨rfl, rfl, rfl⟩

/-- Counterexample for C3's unclamped retry-after formula: reachable
trace — three allowed calls at 1000, 1060, 1160 fill the window's
budget; the fourth call at 1290 is denied by the count limit while
`minWait - (now - lastRefreshTimestamp) = 120 - 130 = -10`, yet the
code returns `retryAfter = 30`, not `-10`. -/
theorem c3_retry_clamp_counterexample :
    (refreshChannelCache 1290
        ((refreshChannelCache 1160
          ((refreshChannelCache 1060
            ((refreshChannelCache 1000
              { lastChannelRefresh := 0, refreshCalls := 0,
                refreshResetTime := 0 }).2)).2)).2)).1.allowed = false ∧
    (refreshChannelCache 1290
        ((refreshChannelCache 1160
          ((refreshChannelCache 1060
            ((refreshChannelCache 1000
              { lastChannelRefresh := 0, refreshCalls := 0,
                refreshResetTime := 0 }).2)).2)).2)).1.retryAfter = 30 ∧
    minWaitOf (windowReset 1290
        ((refreshChannelCache 1160
          ((refreshChannelCache 1060
            ((refreshChannelCache 1000
              { lastChannelRefresh := 0, refreshCalls := 0,
                refreshResetTime := 0 }).2)).2)).2)) -
      (1290 - (windowReset 1290
        ((refreshChannelCache 1160
          ((refreshChannelCache 1060
            ((refreshChannelCache 1000
              { lastChannelRefresh := 0, refreshCalls := 0,
                refreshResetTime := 0 }).2)).2)).2)).lastChannelRefresh) = -10 ∧
    ((30 : Int) ≠ -10) := by
  refine ⟨?_, ?_, ?_, ?_⟩ <;> decide

/-- Witness for C3's amended theorem: a denial (elapsed 30 < required
60) and an allowance (elapsed 490 from a fresh window). -/
theorem c3_rate_limiter_algorithm_witness :
    (refreshChannelCache 40
      { lastChannelRefresh := 10, refreshCalls := 1, refreshResetTime := 10 }).1.allowed
        = false ∧
    (refreshChannelCache 500
      { lastChannelRefresh := 10, refreshCalls := 0, refreshResetTime := 10 }).1.allowed
        = true :=
  ⟨((c3_rate_limiter_algorithm 40
      { lastChannelRefresh := 10, refreshCalls := 1, refreshResetTime := 10 }).1
      (by decide)).1,
   ((c3_rate_limiter_algorithm 500
      { lastChannelRefresh := 10, refreshCalls := 0, refreshResetTime := 10 }).2
      (by decide)).1⟩

/-- Counterexample for C4: three consecutive calls at 1000, 1001, 1002
(N = 3 = maxCallsPerWindow, all within one window).  The first is
allowed; the second and third are denied with retryAfter 59 then 58 —
strictly decreasing, not non-decreasing, because the counter advances
only on allowed calls while the elapsed time keeps growing. -/
theorem c4_backoff_counterexample :
    (refreshChannelCache 1000
      { lastChannelRefresh := 0, refreshCalls := 0, refreshResetTime := 0 }).1.allowed
        = true ∧
    (refreshChannelCache 1001
      ((refreshChannelCache 1000
        { lastChannelRefresh := 0, refreshCalls := 0,
          refreshResetTime := 0 }).2)).1.allowed = false ∧
    (refreshChannelCache 1001
      ((refreshChannelCache 1000
        { lastChannelRefresh := 0, refreshCalls := 0,
          refreshResetTime := 0 }).2)).1.retryAfter = 59 ∧
    (refreshChannelCache 1002
      ((refreshChannelCache 1001
        ((refreshChannelCache 1000
          { lastChannelRefresh := 0, refreshCalls := 0,
            refreshResetTime := 0 }).2)).2)).1.allowed = false ∧
    (refreshChannelCache 1002
      ((refreshChannelCache 1001
        ((refreshChannelCache 1000
          { lastChannelRefresh := 0, refreshCalls := 0,
            refreshResetTime := 0 }).2)).2)).1.retryAfter = 58 ∧
    ¬((58 : Int) ≥ 59) := by
  refine ⟨?_, ?_, ?_, ?_, ?_, ?_⟩ <;> decide

/-- C4 (amended): for consecutive calls at `t1 ≤ t2` inside one window,
(a) a denied call leaves the limiter state exactly as the window reset
left it — in particular the counter does not advance on denial; (b) two
consecutive denials with no intervening window reset and a still
positive raw wait yield a second `retryAfter` no larger than the first
(the values shrink as time passes at a fixed backoff level); and (c)
any call finding the counter at `maxCallsPerWindow = 3` after the reset
is denied — so the call after the third allowed call of a window is
always denied. -/
theorem c4_rate_limiter_backoff (st : RefreshState) (t1 t2 : Int) (h12 : t1 ≤ t2) :
    ((refreshChannelCache t1 st).1.allowed = false →
      (refreshChannelCache t1 st).2 = windowReset t1 st) ∧
    ((refreshChannelCache t1 st).1.allowed = false →
      ¬(t2 - (refreshChannelCache t1 st).2.refreshResetTime > 300) →
      0 < minWaitOf ((refreshChannelCache t1 st).2) -
          (t2 - ((refreshChannelCache t1 st).2).lastChannelRefresh) →
      (refreshChannelCache t2 ((refreshChannelCache t1 st).2)).1.allowed = false ∧
      (refreshChannelCache t2 ((refreshChannelCache t1 st).2)).1.retryAfter ≤
        (refreshChannelCache t1 st).1.retryAfter) ∧
    ((windowReset t1 st).refreshCalls ≥ 3 →
      (refreshChannelCache t1 st).1.allowed = false) := by
  by_cases hc : t1 - (windowReset t1 st).lastChannelRefresh < minWaitOf (windowReset t1 st) ∨
      (windowReset t1 st).refreshCalls ≥ 3
  · have hS : (refreshChannelCache t1 st).2 = windowReset t1 st := by
      rw [refresh_denied t1 st hc]
    have hA : (refreshChannelCache t1 st).1.allowed = false := by
      rw [refresh_denied t1 st hc]
    have hRA : (refreshChannelCache t1 st).1.retryAfter =
        (if minWaitOf (windowReset t1 st) -
             (t1 - (windowReset t1 st).lastChannelRefresh) < 0 then 30
         else minWaitOf (windowReset t1 st) -
             (t1 - (windowReset t1 st).lastChannelRefresh)) := by
      rw [refresh_denied t1 st hc]
    refine ⟨fun _ => hS, ?_, fun _ => hA⟩
    intro _ hnores hraw
    rw [hS] at hnores hraw
    rw [hS]
    have hres2 : windowReset t2 (windowReset t1 st) = windowReset t1 st :=
      windowReset_of_within t2 (windowReset t1 st) hnores
    have hlt : t2 - (windowReset t1 st).lastChannelRefresh <
        minWaitOf (windowReset t1 st) := by linarith
    have hc2 : t2 - (windowReset t2 (windowReset t1 st)).lastChannelRefresh <
        minWaitOf (windowReset t2 (windowReset t1 st)) ∨
        (windowReset t2 (windowReset t1 st)).refreshCalls ≥ 3 := by
      rw [hres2]; exact Or.inl hlt
    have hden2 := refresh_denied t2 (windowReset t1 st) hc2
    constructor
    · rw [hden2]
    · rw [hden2, hRA, hres2]
      have hnc2 : ¬(minWaitOf (windowReset t1 st) -
          (t2 - (windowReset t1 st).lastChannelRefresh) < 0) := by linarith
      have hnc1 : ¬(minWaitOf (windowReset t1 st) -
          (t1 - (windowReset t1 st).lastChannelRefresh) < 0) := by linarith
      dsimp only
      rw [if_neg hnc2, if_neg hnc1]
      linarith
  · have hA : (refreshChannelCache t1 st).1.allowed = true := by
      rw [refresh_allowed t1 st hc]
    push_neg at hc
    refine ⟨fun h => absurd hA (by simp [h]), fun h => absurd hA (by simp [h]), ?_⟩
    intro h3
    exact absurd h3 (not_le.mpr hc.2)


/-- Witness for C4's amended theorem: from counter 1, denials at 1001
and 1002 return retryAfter 59 then 58 — the second is no larger. -/
theorem c4_rate_limiter_backoff_witness :
    (refreshChannelCache 1002
      ((refreshChannelCache 1001
        { lastChannelRefresh := 1000, refreshCalls := 1,
          refreshResetTime := 1000 }).2)).1.allowed = false ∧
    (refreshChannelCache 1002
      ((refreshChannelCache 1001
        { lastChannelRefresh := 1000, refreshCalls := 1,
          refreshResetTime := 1000 }).2)).1.retryAfter ≤
      (refreshChannelCache 1001
        { lastChannelRefresh := 1000, refreshCalls := 1,
          refreshResetTime := 1000 }).1.retryAfter :=
  (c4_rate_limiter_backoff
    { lastChannelRefresh := 1000, refreshCalls := 1, refreshResetTime := 1000 }
    1001 1002 (by decide)).2.1 (by decide) (by decide) (by decide)

/-- Counterexample for C5: from the zero state, the first call at 1000
is allowed; the second call one second later is denied with
`retryAfter = 59` (the allowed call escalated `minWait` to 60), not
approximately 30 as the claim states. -/
theorem c5_two_calls_counterexample :
    (refreshChannelCache 1000
      { lastChannelRefresh := 0, refreshCalls := 0, refreshResetTime := 0 }).1.allowed
        = true ∧
    (refreshChannelCache 1001
      ((refreshChannelCache 1000
        { lastChannelRefresh := 0, refreshCalls := 0,
          refreshResetTime := 0 }).2)).1.allowed = false ∧
    (refreshChannelCache 1001
      ((refreshChannelCache 1000
        { lastChannelRefresh := 0, refreshCalls := 0,
          refreshResetTime := 0 }).2)).1.retryAfter = 59 ∧
    ((59 : Int) ≠ 30) := by
  refine ⟨?_, ?_, ?_, ?_⟩ <;> decide

/-- C5 (amended): when a `requestRefresh` call is allowed and leaves
the counter at 1, a second call one second later (with the window still
open) is denied with `retryAfter = 59` — that is, approximately
`baseWait + stepWait = 60` seconds, not approximately 30: the allowed
call raised the escalating minimum wait to 60 seconds. -/
theorem c5_second_call_within_one_second (st : RefreshState) (t : Int)
    (h1 : (refreshChannelCache t st).1.allowed = true)
    (h2 : (refreshChannelCache t st).2.refreshCalls = 1)
    (h3 : ¬(t + 1 - (refreshChannelCache t st).2.refreshResetTime > 300)) :
    (refreshChannelCache (t + 1) ((refreshChannelCache t st).2)).1.allowed = false ∧
    (refreshChannelCache (t + 1) ((refreshChannelCache t st).2)).1.retryAfter = 59 := by
  by_cases hc : t - (windowReset t st).lastChannelRefresh < minWaitOf (windowReset t st) ∨
      (windowReset t st).refreshCalls ≥ 3
  · have hd := refresh_denied t st hc
    rw [hd] at h1
    exact absurd h1 (by simp)
  · have hall := refresh_allowed t st hc
    have hlast : ((refreshChannelCache t st).2).lastChannelRefresh = t := by rw [hall]
    have hmw : minWaitOf ((refreshChannelCache t st).2) = 60 := by
      simp [minWaitOf, h2]
    have hres2 : windowReset (t + 1) ((refreshChannelCache t st).2) =
        (refreshChannelCache t st).2 :=
      windowReset_of_within _ _ h3
    have hlt : t + 1 - (windowReset (t + 1) ((refreshChannelCache t st).2)).lastChannelRefresh <
        minWaitOf (windowReset (t + 1) ((refreshChannelCache t st).2)) ∨
        (windowReset (t + 1) ((refreshChannelCache t st).2)).refreshCalls ≥ 3 := by
      rw [hres2]
      left
      rw [hlast, hmw]
      linarith
    have hden := refresh_denied (t + 1) ((refreshChannelCache t st).2) hlt
    constructor
    · rw [hden]
    · rw [hden]
      dsimp only
      rw [hres2, hlast, hmw]
      have ht : t + 1 - t = (1 : Int) := by ring
      rw [ht]
      norm_num

/-- Witness for C5's amended theorem at concrete inputs. -/
theorem c5_second_call_within_one_second_witness :
    (refreshChannelCache (2000 + 1)
      ((refreshChannelCache 2000
        { lastChannelRefresh := 0, refreshCalls := 0,
          refreshResetTime := 0 }).2)).1.allowed = false ∧
    (refreshChannelCache (2000 + 1)
      ((refreshChannelCache 2000
        { lastChannelRefresh := 0, refreshCalls := 0,
          refreshResetTime := 0 }).2)).1.retryAfter = 59 :=
  c5_second_call_within_one_second
    { lastChannelRefresh := 0, refreshCalls := 0, refreshResetTime := 0 }
    2000 (by decide) (by decide) (by decide)

/-! ## `GetChannelInfo` and the upstream fallback -/

/-- Counterexample for C8: with an empty cache, `GetChannelInfo` on an
unknown id does not return a not-found-locally result — it performs the
upstream fetch itself (`calledUpstream = true`) and returns the fetched
entry. -/
theorem c8_local_miss_counterexample :
    (getChannelInfo emptyIndex
      (fun q => if q = "C123" then
        some { id := "C123", name := "newchan", isIM := false, user := "",
               isMember := false, topic := "" } else none)
      "C123").calledUpstream = true ∧
    (getChannelInfo emptyIndex
      (fun q => if q = "C123" then
        some { id := "C123", name := "newchan", isIM := false, user := "",
               isMember := false, topic := "" } else none)
      "C123").found =
      some { id := "C123", name := "newchan", isIM := false, user := "",
             isMember := false, topic := "" } := by
  constructor <;> decide

/-- C8 (amended): `GetChannelInfo` returns straight from the cache on a
hit, touching nothing and making no upstream call; on a local miss it
does not return a not-found result — it performs the upstream
fetch-by-id itself, and on success returns the fetched entry after
caching it under the resolved key (on upstream failure it reports the
error, the cache unchanged). -/
theorem c8_get_entry_upstream_fallback (idx : CatalogIndex)
    (upstream : String → Option Channel) (s : String) :
    (∀ ch, idx.channels (resolveTarget idx s) = some ch →
      getChannelInfo idx upstream s =
        { found := some ch, idx := idx, calledUpstream := false }) ∧
    (idx.channels (resolveTarget idx s) = none →
      (getChannelInfo idx upstream s).calledUpstream = true ∧
      (upstream (resolveTarget idx s) = none →
        getChannelInfo idx upstream s =
          { found := none, idx := idx, calledUpstream := true }) ∧
      (∀ info, upstream (resolveTarget idx s) = some info →
        (getChannelInfo idx upstream s).found = some info ∧
        (getChannelInfo idx upstream s).idx.channels (resolveTarget idx s) = some info)) := by
  refine ⟨?_, ?_⟩
  · intro ch hch
    simp [getChannelInfo, hch]
  · intro hmiss
    refine ⟨?_, ?_, ?_⟩
    · rcases hup : upstream (resolveTarget idx s) with _ | info <;>
        simp [getChannelInfo, hmiss, hup]
    · intro hup
      simp [getChannelInfo, hmiss, hup]
    · intro info hup
      constructor
      · simp [getChannelInfo, hmiss, hup]
      · simp [getChannelInfo, hmiss, hup, upd]

/-- Witness for C8's amended theorem: a cache hit with no upstream
call, a miss with a failing upstream, and a miss whose fetched result
is returned and cached. -/
theorem c8_get_entry_upstream_fallback_witness :
    getChannelInfo
      { channels := fun q => if q = "C9" then
          some { id := "C9", name := "dev", isIM := false, user := "",
                 isMember := true, topic := "" } else none,
        channelNames := fun _ => none }
      (fun _ => none) "C9" =
      { found := some { id := "C9", name := "dev", isIM := false, user := "",
                        isMember := true, topic := "" },
        idx := { channels := fun q => if q = "C9" then
                   some { id := "C9", name := "dev", isIM := false, user := "",
                          isMember := true, topic := "" } else none,
                 channelNames := fun _ => none },
        calledUpstream := false } ∧
    getChannelInfo emptyIndex (fun _ => none) "C777" =
      { found := none, idx := emptyIndex, calledUpstream := true } ∧
    (getChannelInfo emptyIndex
      (fun q => if q = "C555" then
        some { id := "C555", name := "ops", isIM := false, user := "",
               isMember := false, topic := "" } else none)
      "C555").found =
      some { id := "C555", name := "ops", isIM := false, user := "",
             isMember := false, topic := "" } :=
  ⟨(c8_get_entry_upstream_fallback
      { channels := fun q => if q = "C9" then
          some { id := "C9", name := "dev", isIM := false, user := "",
                 isMember := true, topic := "" } else none,
        channelNames := fun _ => none }
      (fun _ => none) "C9").1 _ (by decide),
   ((c8_get_entry_upstream_fallback emptyIndex (fun _ => none) "C777").2
      (by decide)).2.1 (by decide),
   (((c8_get_entry_upstream_fallback emptyIndex
      (fun q => if q = "C555" then
        some { id := "C555", name := "ops", isIM := false, user := "",
               isMember := false, topic := "" } else none)
      "C555").2 (by decide)).2.2 _ (by decide)).1⟩

end SlackMCP
